import Mathlib

/-! Transform and animation model of `refactor.cpp`.

A shallow embedding of the pedestal placement matrix (`Cube::getModelMatrix`),
the animation step (`update`), the keyboard handler (`key_callback`) and the
state effect of the per-frame render branch of `main`.

The program functions are generic in the number type `α` of the angles and of
`deltaTime` and use only its `+`, `*`, unary `-` and decimal literals. Two
instances matter: `F32`, the binary32 arithmetic of the program's `float`
(every operation rounded to nearest, ties to even), and an exact field such as
`ℝ`, which is what a statement means by "angles taken as exact reals"; the
theorems about rotations use `ℝ` with `Real.cos`, `Real.sin`.
-/

namespace Refactor

/-! ## GLM vectors and matrices -/

/-- The type `glm::vec3`. -/
structure Vec3 (α : Type) where
  x : α
  y : α
  z : α
deriving DecidableEq, Repr

/-- The type `glm::vec4`. -/
structure Vec4 (α : Type) where
  x : α
  y : α
  z : α
  w : α
deriving DecidableEq, Repr

/-- The type `glm::mat4`: four columns (GLM is column-major, `m[i]` is column `i`). -/
structure Mat4 (α : Type) where
  c0 : Vec4 α
  c1 : Vec4 α
  c2 : Vec4 α
  c3 : Vec4 α
deriving DecidableEq, Repr

/-- The elementary functions of `float` that GLM calls: `cos`, `sin` (in `glm::rotate`)
and `inversesqrt` (in `glm::normalize`). -/
structure FloatOps (α : Type) where
  cos : α → α
  sin : α → α
  inversesqrt : α → α

section Glm

variable {α : Type} [Field α]

/-- GLM `vec4 + vec4`. -/
def Vec4.add (a b : Vec4 α) : Vec4 α :=
  ⟨a.x + b.x, a.y + b.y, a.z + b.z, a.w + b.w⟩

/-- GLM `vec4 * scalar`. -/
def Vec4.scale (a : Vec4 α) (k : α) : Vec4 α :=
  ⟨a.x * k, a.y * k, a.z * k, a.w * k⟩

/-- GLM `vec3 * scalar`. -/
def Vec3.scale (a : Vec3 α) (k : α) : Vec3 α :=
  ⟨a.x * k, a.y * k, a.z * k⟩

/-- GLM `glm::dot` on `vec3`. -/
def Vec3.dot (a b : Vec3 α) : α :=
  a.x * b.x + a.y * b.y + a.z * b.z

/-- GLM `glm::normalize(v) = v * inversesqrt(dot(v, v))`. -/
def glm.normalize (ops : FloatOps α) (v : Vec3 α) : Vec3 α :=
  v.scale (ops.inversesqrt (v.dot v))

/-- The matrix `glm::mat4(1.0f)`. -/
def Mat4.identity : Mat4 α :=
  ⟨⟨1, 0, 0, 0⟩, ⟨0, 1, 0, 0⟩, ⟨0, 0, 1, 0⟩, ⟨0, 0, 0, 1⟩⟩

/-- GLM `mat4 * vec4`: `m[0] * v[0] + m[1] * v[1] + m[2] * v[2] + m[3] * v[3]`
(what the vertex shader computes in `model * vec4(aPos, 1.0)`). -/
def Mat4.mulVec (m : Mat4 α) (v : Vec4 α) : Vec4 α :=
  (((m.c0.scale v.x).add (m.c1.scale v.y)).add (m.c2.scale v.z)).add (m.c3.scale v.w)

/-- GLM `glm::translate(m, v)`:
`Result = m; Result[3] = m[0] * v[0] + m[1] * v[1] + m[2] * v[2] + m[3]`. -/
def glm.translate (m : Mat4 α) (v : Vec3 α) : Mat4 α :=
  { m with c3 := (((m.c0.scale v.x).add (m.c1.scale v.y)).add (m.c2.scale v.z)).add m.c3 }

/-- GLM `glm::rotate(m, angle, v)` (`glm/ext/matrix_transform.inl`). -/
def glm.rotate (ops : FloatOps α) (m : Mat4 α) (angle : α) (v : Vec3 α) : Mat4 α :=
  let c := ops.cos angle
  let s := ops.sin angle
  let axis := glm.normalize ops v
  let temp := axis.scale (1 - c)
  let r00 := c + temp.x * axis.x
  let r01 := temp.x * axis.y + s * axis.z
  let r02 := temp.x * axis.z - s * axis.y
  let r10 := temp.y * axis.x - s * axis.z
  let r11 := c + temp.y * axis.y
  let r12 := temp.y * axis.z + s * axis.x
  let r20 := temp.z * axis.x + s * axis.y
  let r21 := temp.z * axis.y - s * axis.x
  let r22 := c + temp.z * axis.z
  { c0 := ((m.c0.scale r00).add (m.c1.scale r01)).add (m.c2.scale r02)
    c1 := ((m.c0.scale r10).add (m.c1.scale r11)).add (m.c2.scale r12)
    c2 := ((m.c0.scale r20).add (m.c1.scale r21)).add (m.c2.scale r22)
    c3 := m.c3 }

end Glm

/-! ## The arithmetic of `float`

IEEE 754 binary32 with the default rounding (to nearest, ties to even): 24 significant bits,
exponents of the unit in the last place from `-149` (subnormal numbers) to `104`, overflow to
an infinity, NaN for `inf - inf` and `0 * inf`. Every product and every sum is rounded on
its own (no fused multiply-add). The two zeros are identified (they compare equal and the
program never divides by an angle), NaN carries no payload, and `=` on `F32` is identity of
the value, so NaN is equal to itself here. -/

/-- A value of type `float`: the finite number `m * 2 ^ e`, an infinity or NaN. The
arithmetic below returns finite numbers in canonical form: `2 ^ 23 ≤ |m| < 2 ^ 24` with
`-149 ≤ e ≤ 104` (normal), or `|m| < 2 ^ 23` with `e = -149` (subnormal and zero). -/
inductive F32 where
  | finite (m : Int) (e : Int)
  | inf (negative : Bool)
  | nan
deriving DecidableEq, Repr

/-- The number of binary digits of `n` (zero for `n = 0`); `fuel` bounds the recursion and
`bitLength n n` is the bit length of `n`. -/
def bitLength : Nat → Nat → Nat
  | 0, _ => 0
  | fuel + 1, n => if n = 0 then 0 else bitLength fuel (n / 2) + 1

/-- The `float` nearest to the rational number `± n / d` (`d > 0`), ties to even. With
`2 ^ e ≤ n / d < 2 ^ (e + 1)` the unit in the last place is `2 ^ q`, `q = max (e - 23) (-149)`;
`n / d` is divided by it, rounded to an integer `k`, and `k * 2 ^ q` overflows to an infinity
when it reaches `2 ^ 128`. -/
def F32.round (negative : Bool) (n d : Nat) : F32 :=
  if n = 0 then F32.finite 0 (-149)
  else
    let e0 : Int := (bitLength n n : Int) - (bitLength d d : Int)
    let below : Bool := n * 2 ^ (-e0).toNat < d * 2 ^ e0.toNat
    let e : Int := if below then e0 - 1 else e0
    let q : Int := max (e - 23) (-149)
    let N : Nat := n * 2 ^ (-q).toNat
    let D : Nat := d * 2 ^ q.toNat
    let k : Nat := N / D
    let r : Nat := N % D
    let k : Nat := if D < 2 * r ∨ (2 * r = D ∧ k % 2 = 1) then k + 1 else k
    let q : Int := if k = 2 ^ 24 then q + 1 else q
    let k : Nat := if k = 2 ^ 24 then 2 ^ 23 else k
    if 104 < q then F32.inf negative
    else F32.finite (if negative then -(k : Int) else (k : Int)) q

/-- The `float` sum `a + b`: the exact sum, rounded. -/
def F32.add : F32 → F32 → F32
  | F32.finite m1 e1, F32.finite m2 e2 =>
    let e : Int := min e1 e2
    let m : Int := m1 * 2 ^ (e1 - e).toNat + m2 * 2 ^ (e2 - e).toNat
    F32.round (decide (m < 0)) (m.natAbs * 2 ^ e.toNat) (2 ^ (-e).toNat)
  | F32.finite _ _, F32.inf s => F32.inf s
  | F32.inf s, F32.finite _ _ => F32.inf s
  | F32.inf s1, F32.inf s2 => if s1 = s2 then F32.inf s1 else F32.nan
  | _, _ => F32.nan

/-- The `float` product `a * b`: the exact product, rounded. -/
def F32.mul : F32 → F32 → F32
  | F32.finite m1 e1, F32.finite m2 e2 =>
    let e : Int := e1 + e2
    let m : Int := m1 * m2
    F32.round (decide (m < 0)) (m.natAbs * 2 ^ e.toNat) (2 ^ (-e).toNat)
  | F32.finite m _, F32.inf s => if m = 0 then F32.nan else F32.inf (xor (decide (m < 0)) s)
  | F32.inf s, F32.finite m _ => if m = 0 then F32.nan else F32.inf (xor s (decide (m < 0)))
  | F32.inf s1, F32.inf s2 => F32.inf (xor s1 s2)
  | _, _ => F32.nan

/-- The `float` negation `-a`. -/
def F32.neg : F32 → F32
  | F32.finite m e => F32.finite (-m) e
  | F32.inf s => F32.inf (!s)
  | F32.nan => F32.nan

/-- A decimal literal such as `1.5f` or `0.1f`: the number `mantissa * 10 ^ (± exponent)`,
rounded. -/
def F32.ofScientific (mantissa : Nat) (exponentSign : Bool) (decimalExponent : Nat) : F32 :=
  if exponentSign then F32.round false mantissa (10 ^ decimalExponent)
  else F32.round false (mantissa * 10 ^ decimalExponent) 1

/-- The rational number a finite `float` stands for. -/
def F32.toRat : F32 → Option ℚ
  | F32.finite m e => some ((m : ℚ) * (2 : ℚ) ^ e)
  | _ => none

instance : Add F32 := ⟨F32.add⟩

instance : Mul F32 := ⟨F32.mul⟩

instance : Neg F32 := ⟨F32.neg⟩

instance : OfScientific F32 := ⟨F32.ofScientific⟩

instance (n : Nat) : OfNat F32 n := ⟨F32.round false n 1⟩

/-! ## The program state -/

/-- The class `Cube`. -/
structure Cube (α : Type) where
  position : Vec3 α
  color : Vec3 α
  localRotation : α
deriving DecidableEq, Repr

/-- The struct `GameState` (the global `g_gameState`). -/
structure GameState (α : Type) where
  currentTask : Int
  isRotating : Bool
  rotationAngle : α
  pedestalCubes : List (Cube α)
  pedestalPosition : Vec3 α
  pedestalRotation : α
  globalRotation : α
  rotateLocalCubes : Bool
  rotateGlobalCenter : Bool
  rotatePedestalCenter : Bool
deriving DecidableEq, Repr

/-! GLFW action and key codes, with their values in `GLFW/glfw3.h`. -/

/-- The action code `GLFW_PRESS`. -/
def GLFW_PRESS : Int := 1

/-- The key code `GLFW_KEY_SPACE`. -/
def GLFW_KEY_SPACE : Int := 32

/-- The key code `GLFW_KEY_1`. -/
def GLFW_KEY_1 : Int := 49

/-- The key code `GLFW_KEY_2`. -/
def GLFW_KEY_2 : Int := 50

/-- The key code `GLFW_KEY_3`. -/
def GLFW_KEY_3 : Int := 51

/-- The key code `GLFW_KEY_G`. -/
def GLFW_KEY_G : Int := 71

/-- The key code `GLFW_KEY_L`. -/
def GLFW_KEY_L : Int := 76

/-- The key code `GLFW_KEY_P`. -/
def GLFW_KEY_P : Int := 80

/-- The key code `GLFW_KEY_R`. -/
def GLFW_KEY_R : Int := 82

section Program

variable {α : Type} [Add α] [Mul α] [Neg α] [OfScientific α]

/-- The constructor `Cube(pos, col)`: `localRotation(0.0f)`. -/
def Cube.new (pos col : Vec3 α) : Cube α :=
  { position := pos, color := col, localRotation := 0.0 }

/-- The method `Cube::rotate`: `localRotation += angle`, in the arithmetic of `α`. -/
def Cube.rotate (cube : Cube α) (angle : α) : Cube α :=
  { cube with localRotation := cube.localRotation + angle }

/-- The method `Cube::setLocalRotation`: `localRotation = angle`. -/
def Cube.setLocalRotation (cube : Cube α) (angle : α) : Cube α :=
  { cube with localRotation := angle }

/-- The function `key_callback` as a transformer of `g_gameState`
(the messages written to `std::cout` are not modelled). -/
def key_callback (s : GameState α) (key _scancode action _mods : Int) : GameState α :=
  if action = GLFW_PRESS then
    if key = GLFW_KEY_1 then { s with currentTask := 0 }
    else if key = GLFW_KEY_2 then { s with currentTask := 1 }
    else if key = GLFW_KEY_3 then { s with currentTask := 2 }
    else if key = GLFW_KEY_L then
      if s.currentTask = 2 then { s with rotateLocalCubes := !s.rotateLocalCubes } else s
    else if key = GLFW_KEY_G then
      if s.currentTask = 2 then { s with rotateGlobalCenter := !s.rotateGlobalCenter } else s
    else if key = GLFW_KEY_P then
      if s.currentTask = 2 then { s with rotatePedestalCenter := !s.rotatePedestalCenter } else s
    else if key = GLFW_KEY_R then
      if s.currentTask = 1 then { s with isRotating := !s.isRotating } else s
    else if key = GLFW_KEY_SPACE then
      { s with
        rotationAngle := 0.0
        pedestalRotation := 0.0
        globalRotation := 0.0
        pedestalCubes := s.pedestalCubes.map (fun cube => cube.setLocalRotation 0.0) }
    else s
  else s

/-- The function `update` as a transformer of `g_gameState`; `*` and `+` are those of `α`
(`float` operations for `α = F32`). -/
def update (s : GameState α) (deltaTime : α) : GameState α :=
  let s := if s.isRotating then { s with rotationAngle := s.rotationAngle + deltaTime * 2.0 } else s
  if s.currentTask = 2 then
    let rotationSpeed := deltaTime * 1.5
    let s :=
      if s.rotateLocalCubes then
        { s with pedestalCubes := s.pedestalCubes.map (fun cube => cube.rotate rotationSpeed) }
      else s
    let s :=
      if s.rotateGlobalCenter then { s with globalRotation := s.globalRotation + rotationSpeed }
      else s
    let s :=
      if s.rotatePedestalCenter then
        { s with pedestalRotation := s.pedestalRotation + rotationSpeed }
      else s
    s
  else s

/-- A run of the animation: `update(d1)`, ..., `update(dn)` called in this order. -/
def updateRun (s : GameState α) (ds : List α) : GameState α :=
  ds.foldl update s

/-- The effect on `g_gameState` of the `switch (g_gameState.currentTask)` of the render loop
of `main`: the only statement of the three branches that writes the state is
`g_gameState.isRotating = true` in `case 1`; the draw calls only read it. -/
def renderScene (s : GameState α) : GameState α :=
  if s.currentTask = 0 then s
  else if s.currentTask = 1 then { s with isRotating := true }
  else if s.currentTask = 2 then s
  else s

/-- The state set up by `main` before the render loop: the member initialisers of
`GameState`, the pedestal position, the four cubes and the two zeroed spins. -/
def initialState : GameState α :=
  { currentTask := 0
    isRotating := false
    rotationAngle := 0.0
    pedestalCubes :=
      [ Cube.new ⟨-1.0, -0.5, 0.0⟩ ⟨1.0, 0.0, 0.0⟩,
        Cube.new ⟨1.0, -0.5, 0.0⟩ ⟨0.0, 1.0, 0.0⟩,
        Cube.new ⟨0.0, 0.5, 0.0⟩ ⟨0.0, 0.0, 1.0⟩,
        Cube.new ⟨0.0, -0.5, 0.0⟩ ⟨1.0, 1.0, 0.0⟩ ]
    pedestalPosition := ⟨2.0, 0.0, -5.0⟩
    pedestalRotation := 0.0
    globalRotation := 0.0
    rotateLocalCubes := false
    rotateGlobalCenter := false
    rotatePedestalCenter := false }

end Program

section ProgramMatrices

variable {α : Type} [Field α]

/-- The method `Cube::getModelMatrix`. -/
def Cube.getModelMatrix (ops : FloatOps α) (cube : Cube α) (pedestalCenter : Vec3 α)
    (pedestalRotation globalRotation : α) : Mat4 α :=
  let model : Mat4 α := Mat4.identity
  let model := glm.rotate ops model globalRotation ⟨0.0, 1.0, 0.0⟩
  let model := glm.translate model pedestalCenter
  let model := glm.rotate ops model pedestalRotation ⟨0.0, 1.0, 0.0⟩
  let model := glm.translate model cube.position
  let model := glm.rotate ops model cube.localRotation ⟨0.0, 1.0, 0.0⟩
  model

/-- The function `renderPedestal`: the list of `model` matrices it uploads with
`program.setMat4("model", model)`, one per cube, in order. It does not write `g_gameState`. -/
def renderPedestal (ops : FloatOps α) (s : GameState α) : List (Mat4 α) :=
  s.pedestalCubes.map
    (fun cube => cube.getModelMatrix ops s.pedestalPosition s.pedestalRotation s.globalRotation)

end ProgramMatrices

/-! ## Concrete states -/

/-- The initial state after scene 2 (the pedestal) was selected and the global spin switched
on: `currentTask == 2`, `rotateGlobalCenter` set, every angle zero. -/
def pedestalGlobalOn : GameState F32 :=
  { (initialState : GameState F32) with currentTask := 2, rotateGlobalCenter := true }

/-- The initial state with `isRotating` set while scene 0 is active (reached by visiting
scene 1, where the render branch sets the flag, and pressing the key 1). -/
def sceneZeroRotating : GameState F32 :=
  { (initialState : GameState F32) with isRotating := true }

/-- A state of scene 0 with `isRotating` and the three pedestal toggles set (they were
switched on in scene 2) and nonzero pedestal angles. -/
def sceneZeroAllOn : GameState F32 :=
  { (initialState : GameState F32) with
    isRotating := true
    rotateLocalCubes := true
    rotateGlobalCenter := true
    rotatePedestalCenter := true
    rotationAngle := 0.5
    globalRotation := 1.5
    pedestalRotation := 3.0
    pedestalCubes := (initialState : GameState F32).pedestalCubes.map (fun cube => cube.rotate 4.5) }

/-- The state of a long session in the single-shape scene: `isRotating` set and
`rotationAngle` grown to `2 ^ 24 = 16777216`. -/
def rotatingAtLargeAngle : GameState F32 :=
  { (initialState : GameState F32) with
    currentTask := 1
    isRotating := true
    rotationAngle := 16777216.0 }

/-! ## Mathematical reference objects

The matrices and maps the specification speaks of, written independently of the
GLM code above: Mathlib matrices indexed by row and column. -/

section Reference

variable {α : Type} [Field α]

/-- Component `i` of a `vec4` (`v[i]`). -/
def Vec4.get (v : Vec4 α) : Fin 4 → α
  | 0 => v.x
  | 1 => v.y
  | 2 => v.z
  | 3 => v.w

/-- Column `j` of a `mat4` (`m[j]`). -/
def Mat4.col (m : Mat4 α) : Fin 4 → Vec4 α
  | 0 => m.c0
  | 1 => m.c1
  | 2 => m.c2
  | 3 => m.c3

/-- The mathematical matrix a `glm::mat4` stands for: entry `(i, j)` is row `i` of column `j`. -/
def Mat4.toMatrix (m : Mat4 α) : Matrix (Fin 4) (Fin 4) α :=
  Matrix.of fun i j => (m.col j).get i

/-- Spec: `Ry(a)`, the 4×4 homogeneous rotation by the angle `a` about the Y axis. -/
def Ry (ops : FloatOps α) (a : α) : Matrix (Fin 4) (Fin 4) α :=
  !![ops.cos a, 0, ops.sin a, 0;
     0, 1, 0, 0;
     -ops.sin a, 0, ops.cos a, 0;
     0, 0, 0, 1]

/-- Spec: `T(v)`, the 4×4 homogeneous translation by the vector `v`. -/
def T (v : Vec3 α) : Matrix (Fin 4) (Fin 4) α :=
  !![1, 0, 0, v.x;
     0, 1, 0, v.y;
     0, 0, 1, v.z;
     0, 0, 0, 1]

/-- Spec: the 3×3 rotation by the angle `a` about the Y axis. -/
def Ry3 (ops : FloatOps α) (a : α) : Matrix (Fin 3) (Fin 3) α :=
  !![ops.cos a, 0, ops.sin a;
     0, 1, 0;
     -ops.sin a, 0, ops.cos a]

/-- Spec: the rotation by the angle `a` about the Y axis, as a map of points. -/
def rotY (ops : FloatOps α) (a : α) (v : Vec3 α) : Vec3 α :=
  ⟨ops.cos a * v.x + ops.sin a * v.z, v.y, -ops.sin a * v.x + ops.cos a * v.z⟩

/-- Sum of two vectors. -/
def Vec3.add (a b : Vec3 α) : Vec3 α :=
  ⟨a.x + b.x, a.y + b.y, a.z + b.z⟩

/-- The point `(x, y, z)` in homogeneous coordinates, `vec4(v, 1.0)`. -/
def Vec3.toPoint (v : Vec3 α) : Vec4 α :=
  ⟨v.x, v.y, v.z, 1⟩

/-- The upper-left 3×3 block of a 4×4 matrix. -/
def upperLeft (m : Matrix (Fin 4) (Fin 4) α) : Matrix (Fin 3) (Fin 3) α :=
  !![m 0 0, m 0 1, m 0 2;
     m 1 0, m 1 1, m 1 2;
     m 2 0, m 2 1, m 2 2]

end Reference

/-! ## Lemmas on the GLM operations -/

section GlmLemmas

variable {α : Type} [Field α]

/-- The matrix `glm::mat4(1.0f)` is the identity matrix. -/
theorem toMatrix_identity : (Mat4.identity : Mat4 α).toMatrix = 1 := by
  ext i j
  fin_cases i <;> fin_cases j <;>
    simp [Mat4.toMatrix, Mat4.identity, Mat4.col, Vec4.get]

/-- GLM `glm::translate(m, v)` multiplies `m` on the right by `T(v)`. -/
theorem toMatrix_translate (m : Mat4 α) (v : Vec3 α) :
    (glm.translate m v).toMatrix = m.toMatrix * T v := by
  ext i j
  fin_cases i <;> fin_cases j <;>
    simp [Mat4.toMatrix, glm.translate, Mat4.col, Vec4.get, T, Matrix.mul_apply,
      Fin.sum_univ_four, Vec4.add, Vec4.scale, Matrix.vecHead, Matrix.vecTail]

/-- The literal `0.0f`. -/
@[simp] theorem float_zero : (0.0 : α) = 0 := by norm_num

/-- The literal `1.0f`. -/
@[simp] theorem float_one : (1.0 : α) = 1 := by norm_num

/-- GLM `glm::normalize` leaves the axis `(0, 1, 0)` unchanged when `inversesqrt 1 = 1`. -/
theorem normalize_y (ops : FloatOps α) (h : ops.inversesqrt 1 = 1) :
    glm.normalize ops (⟨0.0, 1.0, 0.0⟩ : Vec3 α) = ⟨0, 1, 0⟩ := by
  simp [glm.normalize, Vec3.dot, Vec3.scale, h]

/-- The columns of `glm::rotate(m, a, vec3(0, 1, 0))`. -/
theorem rotate_y (ops : FloatOps α) (h : ops.inversesqrt 1 = 1) (m : Mat4 α) (a : α) :
    glm.rotate ops m a ⟨0.0, 1.0, 0.0⟩ =
      { c0 := (m.c0.scale (ops.cos a)).add (m.c2.scale (-ops.sin a))
        c1 := m.c1
        c2 := (m.c0.scale (ops.sin a)).add (m.c2.scale (ops.cos a))
        c3 := m.c3 } := by
  unfold glm.rotate
  rw [normalize_y ops h]
  simp [Vec3.scale, Vec4.add, Vec4.scale]

/-- GLM `glm::rotate(m, a, vec3(0, 1, 0))` multiplies `m` on the right by `Ry(a)`. -/
theorem toMatrix_rotate_y (ops : FloatOps α) (h : ops.inversesqrt 1 = 1) (m : Mat4 α) (a : α) :
    (glm.rotate ops m a ⟨0.0, 1.0, 0.0⟩).toMatrix = m.toMatrix * Ry ops a := by
  rw [rotate_y ops h]
  ext i j
  fin_cases i <;> fin_cases j <;>
    simp [Mat4.toMatrix, Mat4.col, Vec4.get, Ry, Matrix.mul_apply, Fin.sum_univ_four, Vec4.add,
      Vec4.scale, Matrix.vecHead, Matrix.vecTail]

end GlmLemmas

/-! ## The placement matrix -/

section Placement

/-- The columns of the result of `Cube::getModelMatrix`, in closed form. -/
theorem getModelMatrix_cols {α : Type} [Field α] (ops : FloatOps α) (h : ops.inversesqrt 1 = 1)
    (cube : Cube α) (c : Vec3 α) (p g : α) :
    cube.getModelMatrix ops c p g =
      { c0 :=
          { x := (ops.cos g * ops.cos p + ops.sin g * -ops.sin p) * ops.cos cube.localRotation +
              (ops.cos g * ops.sin p + ops.sin g * ops.cos p) * -ops.sin cube.localRotation
            y := 0
            z := (-ops.sin g * ops.cos p + ops.cos g * -ops.sin p) * ops.cos cube.localRotation +
              (-ops.sin g * ops.sin p + ops.cos g * ops.cos p) * -ops.sin cube.localRotation
            w := 0 }
        c1 := { x := 0, y := 1, z := 0, w := 0 }
        c2 :=
          { x := (ops.cos g * ops.cos p + ops.sin g * -ops.sin p) * ops.sin cube.localRotation +
              (ops.cos g * ops.sin p + ops.sin g * ops.cos p) * ops.cos cube.localRotation
            y := 0
            z := (-ops.sin g * ops.cos p + ops.cos g * -ops.sin p) * ops.sin cube.localRotation +
              (-ops.sin g * ops.sin p + ops.cos g * ops.cos p) * ops.cos cube.localRotation
            w := 0 }
        c3 :=
          { x := (ops.cos g * ops.cos p + ops.sin g * -ops.sin p) * cube.position.x +
                (ops.cos g * ops.sin p + ops.sin g * ops.cos p) * cube.position.z +
              (ops.cos g * c.x + ops.sin g * c.z)
            y := cube.position.y + c.y
            z := (-ops.sin g * ops.cos p + ops.cos g * -ops.sin p) * cube.position.x +
                (-ops.sin g * ops.sin p + ops.cos g * ops.cos p) * cube.position.z +
              (-ops.sin g * c.x + ops.cos g * c.z)
            w := 1 } } := by
  unfold Cube.getModelMatrix
  simp only [rotate_y ops h]
  simp only [glm.translate, Mat4.identity, Vec4.add, Vec4.scale]
  simp only [mul_zero, zero_mul, add_zero, zero_add, mul_one, one_mul, neg_zero]

/-- The matrix of the result of `Cube::getModelMatrix` is the five-fold product. -/
theorem toMatrix_getModelMatrix {α : Type} [Field α] (ops : FloatOps α)
    (h : ops.inversesqrt 1 = 1) (cube : Cube α) (c : Vec3 α) (p g : α) :
    (cube.getModelMatrix ops c p g).toMatrix =
      Ry ops g * T c * Ry ops p * T cube.position * Ry ops cube.localRotation := by
  unfold Cube.getModelMatrix
  simp only [toMatrix_rotate_y ops h, toMatrix_translate, toMatrix_identity, one_mul]

/-- The effect of a SPACE press. -/
theorem key_callback_space {α : Type} [Field α] (s : GameState α) (scancode mods : Int) :
    key_callback s GLFW_KEY_SPACE scancode GLFW_PRESS mods =
      { s with
        rotationAngle := 0
        pedestalRotation := 0
        globalRotation := 0
        pedestalCubes := s.pedestalCubes.map (fun cube => cube.setLocalRotation 0) } := by
  simp [key_callback, GLFW_KEY_SPACE, GLFW_PRESS, GLFW_KEY_1, GLFW_KEY_2, GLFW_KEY_3,
    GLFW_KEY_L, GLFW_KEY_G, GLFW_KEY_P, GLFW_KEY_R]

/-- Two translations compose to the translation by the sum. -/
theorem T_mul_T {α : Type} [Field α] (a b : Vec3 α) : T a * T b = T (a.add b) := by
  ext i j
  fin_cases i <;> fin_cases j <;>
    simp [T, Vec3.add, Matrix.mul_apply, Fin.sum_univ_four, Matrix.vecHead, Matrix.vecTail] <;>
    ring

/-- The rotation block of a translation is the identity. -/
theorem upperLeft_T {α : Type} [Field α] (a : Vec3 α) : upperLeft (T a) = 1 := by
  ext i j
  fin_cases i <;> fin_cases j <;> simp [upperLeft, T, Matrix.vecHead, Matrix.vecTail]

/-- The rotation by the angle zero is the identity matrix. -/
theorem Ry_zero : Ry (⟨Real.cos, Real.sin, fun x => (Real.sqrt x)⁻¹⟩ : FloatOps ℝ) 0 = 1 := by
  ext i j
  fin_cases i <;> fin_cases j <;> simp [Ry, Matrix.vecHead, Matrix.vecTail]

/-- The exact real `inversesqrt` maps `1` to `1`. -/
theorem real_inversesqrt_one : (fun x : ℝ => (Real.sqrt x)⁻¹) 1 = 1 := by
  simp

/-- C1: with angles and coordinates taken as exact reals, `Cube::getModelMatrix` returns
exactly the product `Ry(g) * T(c) * Ry(p) * T(o) * Ry(l)` (global spin, pedestal center,
pedestal spin, cube offset, local spin); equivalently it maps every local point `x` to
`Ry(g)(c + Ry(p)(o + Ry(l) x))`. -/
theorem getModelMatrix_eq_product (cube : Cube ℝ) (c : Vec3 ℝ) (p g : ℝ) :
    let R : FloatOps ℝ := ⟨Real.cos, Real.sin, fun x => (Real.sqrt x)⁻¹⟩
    (cube.getModelMatrix R c p g).toMatrix =
        Ry R g * T c * Ry R p * T cube.position * Ry R cube.localRotation ∧
      ∀ x : Vec3 ℝ,
        (cube.getModelMatrix R c p g).mulVec x.toPoint =
          (rotY R g (c.add (rotY R p (cube.position.add (rotY R cube.localRotation x))))).toPoint := by
  intro R
  have h : R.inversesqrt 1 = 1 := real_inversesqrt_one
  constructor
  · exact toMatrix_getModelMatrix R h cube c p g
  · intro x
    unfold Cube.getModelMatrix
    simp only [rotate_y R h]
    simp only [glm.translate, Mat4.identity, Mat4.mulVec, Vec4.add, Vec4.scale, rotY, Vec3.add,
      Vec3.toPoint, Vec4.mk.injEq]
    refine ⟨?_, ?_, ?_, ?_⟩ <;> ring

/-- Entry `(i, j)` of the matrix of a `mat4`. -/
theorem toMatrix_apply {α : Type} (m : Mat4 α) (i j : Fin 4) :
    m.toMatrix i j = (m.col j).get i := rfl

/-- The upper-left block of the placement matrix is the rotation about Y by the sum of the
three spins, and its bottom row is `(0, 0, 0, 1)`. -/
theorem getModelMatrix_block (cube : Cube ℝ) (c : Vec3 ℝ) (p g : ℝ) :
    let R : FloatOps ℝ := ⟨Real.cos, Real.sin, fun x => (Real.sqrt x)⁻¹⟩
    let M := (cube.getModelMatrix R c p g).toMatrix
    upperLeft M = Ry3 R (g + p + cube.localRotation) ∧
      M 3 0 = 0 ∧ M 3 1 = 0 ∧ M 3 2 = 0 ∧ M 3 3 = 1 := by
  intro R M
  have h : R.inversesqrt 1 = 1 := real_inversesqrt_one
  have hM : M = (cube.getModelMatrix R c p g).toMatrix := rfl
  rw [getModelMatrix_cols R h] at hM
  have hc : R.cos (g + p + cube.localRotation) =
      (Real.cos g * Real.cos p - Real.sin g * Real.sin p) * Real.cos cube.localRotation -
        (Real.sin g * Real.cos p + Real.cos g * Real.sin p) * Real.sin cube.localRotation := by
    show Real.cos _ = _
    rw [Real.cos_add, Real.cos_add, Real.sin_add]
  have hs : R.sin (g + p + cube.localRotation) =
      (Real.sin g * Real.cos p + Real.cos g * Real.sin p) * Real.cos cube.localRotation +
        (Real.cos g * Real.cos p - Real.sin g * Real.sin p) * Real.sin cube.localRotation := by
    show Real.sin _ = _
    rw [Real.sin_add, Real.cos_add, Real.sin_add]
  have e00 : M 0 0 = R.cos (g + p + cube.localRotation) := by
    rw [hc, hM, toMatrix_apply]; show _ * _ + _ * _ = _; simp only [R]; ring
  have e02 : M 0 2 = R.sin (g + p + cube.localRotation) := by
    rw [hs, hM, toMatrix_apply]; show _ * _ + _ * _ = _; simp only [R]; ring
  have e20 : M 2 0 = -R.sin (g + p + cube.localRotation) := by
    rw [hs, hM, toMatrix_apply]; show _ * _ + _ * _ = _; simp only [R]; ring
  have e22 : M 2 2 = R.cos (g + p + cube.localRotation) := by
    rw [hc, hM, toMatrix_apply]; show _ * _ + _ * _ = _; simp only [R]; ring
  have e01 : M 0 1 = 0 := by rw [hM]; rfl
  have e10 : M 1 0 = 0 := by rw [hM]; rfl
  have e11 : M 1 1 = 1 := by rw [hM]; rfl
  have e12 : M 1 2 = 0 := by rw [hM]; rfl
  have e21 : M 2 1 = 0 := by rw [hM]; rfl
  refine ⟨?_, ?_, ?_, ?_, ?_⟩
  · simp only [upperLeft, Ry3, e00, e01, e02, e10, e11, e12, e20, e21, e22]
  all_goals rw [hM]; rfl

/-- A rotation about Y is orthogonal. -/
theorem Ry3_mul_transpose (a : ℝ) :
    let R : FloatOps ℝ := ⟨Real.cos, Real.sin, fun x => (Real.sqrt x)⁻¹⟩
    Ry3 R a * (Ry3 R a).transpose = 1 ∧ (Ry3 R a).transpose * Ry3 R a = 1 := by
  intro R
  have hcs := Real.cos_sq_add_sin_sq a
  constructor <;>
  · ext i j
    fin_cases i <;> fin_cases j <;>
      simp [Ry3, R, Matrix.mul_apply, Fin.sum_univ_three, Matrix.vecHead, Matrix.vecTail] <;>
      nlinarith [hcs]

/-- A rotation about Y has determinant one. -/
theorem Ry3_det (a : ℝ) :
    (Ry3 (⟨Real.cos, Real.sin, fun x => (Real.sqrt x)⁻¹⟩ : FloatOps ℝ) a).det = 1 := by
  have hcs := Real.cos_sq_add_sin_sq a
  simp [Ry3, Matrix.det_fin_three, Matrix.vecHead, Matrix.vecTail]
  nlinarith [hcs]

/-- C9: the placement matrix is a rigid transform. With exact reals, the upper-left 3×3 block
of the result of `Cube::getModelMatrix` is the rotation about Y by
`globalRotation + pedestalRotation + localRotation`, it is orthogonal with determinant 1, and
the bottom row of the matrix is `(0, 0, 0, 1)`. -/
theorem getModelMatrix_rigid (cube : Cube ℝ) (c : Vec3 ℝ) (p g : ℝ) :
    let R : FloatOps ℝ := ⟨Real.cos, Real.sin, fun x => (Real.sqrt x)⁻¹⟩
    let M := (cube.getModelMatrix R c p g).toMatrix
    upperLeft M = Ry3 R (g + p + cube.localRotation) ∧
      upperLeft M * (upperLeft M).transpose = 1 ∧
      (upperLeft M).transpose * upperLeft M = 1 ∧
      (upperLeft M).det = 1 ∧
      (M 3 0 = 0 ∧ M 3 1 = 0 ∧ M 3 2 = 0 ∧ M 3 3 = 1) := by
  intro R M
  obtain ⟨hB, hrow⟩ := getModelMatrix_block cube c p g
  have hB2 : upperLeft M = Ry3 R (g + p + cube.localRotation) := hB
  refine ⟨hB2, ?_, ?_, ?_, hrow⟩
  · rw [hB2]; exact (Ry3_mul_transpose _).1
  · rw [hB2]; exact (Ry3_mul_transpose _).2
  · rw [hB2]; exact Ry3_det _

/-- With all three spins zero the placement matrix is the product of the two translations. -/
theorem toMatrix_getModelMatrix_zero (cube : Cube ℝ) (c : Vec3 ℝ) :
    ((cube.setLocalRotation 0).getModelMatrix
        (⟨Real.cos, Real.sin, fun x => (Real.sqrt x)⁻¹⟩ : FloatOps ℝ) c 0 0).toMatrix =
      T c * T cube.position := by
  rw [toMatrix_getModelMatrix _ real_inversesqrt_one]
  simp only [Cube.setLocalRotation, Ry_zero, one_mul, mul_one]

/-- C4: after the reset command (a SPACE press) the placement matrix of every pedestal cube,
`getModelMatrix(pedestalPosition, pedestalRotation, globalRotation)` as `renderPedestal`
computes it, equals `translate(center) * translate(offset)`, the pure translation by
`center + offset` with an identity rotation block. For the initial data of `main` the four
matrices are `translate(2,0,-5) * translate(offset)` for the offsets `(-1,-0.5,0)`,
`(1,-0.5,0)`, `(0,0.5,0)`, `(0,-0.5,0)`. -/
theorem reset_placement (s : GameState ℝ) (scancode mods : Int) :
    let R : FloatOps ℝ := ⟨Real.cos, Real.sin, fun x => (Real.sqrt x)⁻¹⟩
    let ms := (renderPedestal R (key_callback s GLFW_KEY_SPACE scancode GLFW_PRESS mods)).map
      Mat4.toMatrix
    ms = s.pedestalCubes.map (fun cube => T s.pedestalPosition * T cube.position) ∧
      ms = s.pedestalCubes.map (fun cube => T (s.pedestalPosition.add cube.position)) ∧
      ms.map upperLeft = s.pedestalCubes.map (fun _ => 1) ∧
      (renderPedestal R initialState).map Mat4.toMatrix =
        [T ⟨2, 0, -5⟩ * T ⟨-1, -0.5, 0⟩, T ⟨2, 0, -5⟩ * T ⟨1, -0.5, 0⟩,
          T ⟨2, 0, -5⟩ * T ⟨0, 0.5, 0⟩, T ⟨2, 0, -5⟩ * T ⟨0, -0.5, 0⟩] := by
  intro R ms
  have h1 : ms = s.pedestalCubes.map (fun cube => T s.pedestalPosition * T cube.position) := by
    simp only [ms, renderPedestal, key_callback_space, List.map_map]
    apply List.map_congr_left
    intro cube _
    exact toMatrix_getModelMatrix_zero cube s.pedestalPosition
  refine ⟨h1, ?_, ?_, ?_⟩
  · rw [h1]; simp only [T_mul_T]
  · rw [h1]; simp only [List.map_map, T_mul_T]
    apply List.map_congr_left
    intro cube _
    exact upperLeft_T _
  · have hz : ∀ pos col : Vec3 ℝ, (Cube.new pos col) = (Cube.mk pos col 0).setLocalRotation 0 := by
      intro pos col; simp [Cube.new, Cube.setLocalRotation]
    simp only [renderPedestal, initialState, List.map_cons, List.map_nil, hz, float_zero,
      float_one]
    have key : ∀ (cube : Cube ℝ) (c : Vec3 ℝ),
        ((cube.setLocalRotation 0).getModelMatrix R c 0 0).toMatrix = T c * T cube.position :=
      toMatrix_getModelMatrix_zero
    simp only [key]
    norm_num

end Placement

/-! ## The animation step -/

section Animation

set_option maxRecDepth 100000

/-- The function `update`, field by field, in any arithmetic. -/
theorem update_eq {α : Type} [Add α] [Mul α] [OfScientific α] (s : GameState α)
    (deltaTime : α) :
    update s deltaTime =
      { s with
        rotationAngle :=
          if s.isRotating then s.rotationAngle + deltaTime * 2.0 else s.rotationAngle
        pedestalCubes :=
          if s.currentTask = 2 ∧ s.rotateLocalCubes then
            s.pedestalCubes.map (fun cube => cube.rotate (deltaTime * 1.5))
          else s.pedestalCubes
        globalRotation :=
          if s.currentTask = 2 ∧ s.rotateGlobalCenter then s.globalRotation + deltaTime * 1.5
          else s.globalRotation
        pedestalRotation :=
          if s.currentTask = 2 ∧ s.rotatePedestalCenter then
            s.pedestalRotation + deltaTime * 1.5
          else s.pedestalRotation } := by
  obtain ⟨task, rot, angle, cubes, pos, prot, grot, tl, tg, tp⟩ := s
  by_cases ht : task = 2 <;> cases rot <;> cases tl <;> cases tg <;> cases tp <;>
    simp [update, ht]

/-- C2 as amended: one call of `update(deltaTime)` replaces `rotationAngle` by the sum
`rotationAngle + deltaTime * 2.0` if `isRotating` is set and leaves it unchanged otherwise;
in the pedestal scene (`currentTask == 2`), with `step = deltaTime * 1.5`, it replaces every
cube's `localRotation` by `localRotation + step` iff `rotateLocalCubes`, `globalRotation` by
`globalRotation + step` iff `rotateGlobalCenter` and `pedestalRotation` by
`pedestalRotation + step` iff `rotatePedestalCenter`, each unchanged when its toggle is off.
The products and sums are those of the number type: rounded `float` operations in the
program (`α = F32`), exact increases by `2.0 * deltaTime` and `1.5 * deltaTime` when angles
are taken as exact reals. In `float`, from zero angles with the global toggle on and the
local toggle off, `deltaTime = 1.0` gives `globalRotation = 1.5` and every
`localRotation = 0`. -/
theorem update_step {α : Type} [Add α] [Mul α] [OfScientific α] (s : GameState α)
    (deltaTime : α) :
    (update s deltaTime).rotationAngle =
        (if s.isRotating then s.rotationAngle + deltaTime * 2.0 else s.rotationAngle) ∧
      (s.currentTask = 2 →
        (update s deltaTime).pedestalCubes =
            (if s.rotateLocalCubes then
              s.pedestalCubes.map
                (fun cube => { cube with localRotation := cube.localRotation + deltaTime * 1.5 })
            else s.pedestalCubes) ∧
          (update s deltaTime).globalRotation =
            (if s.rotateGlobalCenter then s.globalRotation + deltaTime * 1.5
            else s.globalRotation) ∧
          (update s deltaTime).pedestalRotation =
            (if s.rotatePedestalCenter then s.pedestalRotation + deltaTime * 1.5
            else s.pedestalRotation)) ∧
      (∀ t : GameState F32, t.currentTask = 2 → t.rotateGlobalCenter = true →
        t.rotateLocalCubes = false → t.globalRotation = 0 →
        (∀ cube ∈ t.pedestalCubes, cube.localRotation = 0) →
        (update t 1.0).globalRotation = 1.5 ∧
          ∀ cube ∈ (update t 1.0).pedestalCubes, cube.localRotation = 0) := by
  refine ⟨?_, ?_, ?_⟩
  · rw [update_eq]
  · intro ht
    rw [update_eq]
    simp only [ht, true_and, Cube.rotate]
  · intro t ht hg hl hzero hcubes
    rw [update_eq]
    simp only [ht, hg, hl, hzero, true_and, and_true, if_true, Bool.false_eq_true, if_false]
    exact ⟨by decide, hcubes⟩

/-- C3 as amended: additivity of the animation step when angles and `deltaTime` are taken
as exact reals (any exact field): `update(d1)` followed by `update(d2)` gives the same state,
hence the same `rotationAngle`, `globalRotation`, `pedestalRotation` and `localRotation` of
every cube, as the single call `update(d1 + d2)`, for all `d1`, `d2` (in particular for
`d1 ≥ 0` and `d2 ≥ 0`). -/
theorem update_additive {α : Type} [Field α] (s : GameState α) (d1 d2 : α) :
    update (update s d1) d2 = update s (d1 + d2) := by
  obtain ⟨task, rot, angle, cubes, pos, prot, grot, tl, tg, tp⟩ := s
  simp only [update_eq]
  by_cases ht : task = 2 <;> cases rot <;> cases tl <;> cases tg <;> cases tp <;>
    simp [ht, Cube.rotate, Function.comp_def, add_assoc, ← add_mul]

/-- The state after a run of `update` calls, field by field, in any arithmetic: every
angle that moves is the left fold of its steps. -/
theorem updateRun_fold {α : Type} [Add α] [Mul α] [OfScientific α] (ds : List α)
    (s : GameState α) :
    updateRun s ds =
      { s with
        rotationAngle :=
          if s.isRotating then ds.foldl (fun a d => a + d * 2.0) s.rotationAngle
          else s.rotationAngle
        pedestalCubes :=
          if s.currentTask = 2 ∧ s.rotateLocalCubes then
            s.pedestalCubes.map
              (fun cube =>
                { cube with
                  localRotation := ds.foldl (fun a d => a + d * 1.5) cube.localRotation })
          else s.pedestalCubes
        globalRotation :=
          if s.currentTask = 2 ∧ s.rotateGlobalCenter then
            ds.foldl (fun a d => a + d * 1.5) s.globalRotation
          else s.globalRotation
        pedestalRotation :=
          if s.currentTask = 2 ∧ s.rotatePedestalCenter then
            ds.foldl (fun a d => a + d * 1.5) s.pedestalRotation
          else s.pedestalRotation } := by
  induction ds generalizing s with
  | nil =>
    obtain ⟨task, rot, angle, cubes, pos, prot, grot, tl, tg, tp⟩ := s
    simp [updateRun]
  | cons d ds ih =>
    have hstep : updateRun s (d :: ds) = updateRun (update s d) ds := rfl
    rw [hstep, ih, update_eq]
    obtain ⟨task, rot, angle, cubes, pos, prot, grot, tl, tg, tp⟩ := s
    by_cases ht : task = 2 <;> cases rot <;> cases tl <;> cases tg <;> cases tp <;>
      simp [ht, Cube.rotate, Function.comp_def]

/-- In an exact field the left fold of the steps is the initial value plus the factor
times the sum. -/
theorem foldl_steps_exact {β : Type} [Field β] (k : β) (es : List β) (a : β) :
    es.foldl (fun a d => a + d * k) a = a + k * es.sum := by
  induction es generalizing a with
  | nil => simp
  | cons e es ih => simp only [List.foldl_cons, ih, List.sum_cons]; ring

/-- C7 as amended: independence of the three pedestal toggles over a run. In the pedestal
scene, after `update(d1)`, ..., `update(dn)` (any `n ≥ 0`): every cube's `localRotation`
equals its initial value if `rotateLocalCubes` is off, and if it is on it is the result of
adding the steps `d1 * 1.5`, ..., `dn * 1.5` one after the other to the initial value, in the
arithmetic of the program; likewise `globalRotation` with `rotateGlobalCenter` and
`pedestalRotation` with `rotatePedestalCenter`, each depending on its own toggle only. When
angles are taken as exact reals the advanced value is the initial value plus
`1.5 * (d1 + ... + dn)`. -/
theorem updateRun_independent {α : Type} [Add α] [Mul α] [OfScientific α] (s : GameState α)
    (ds : List α) (hscene : s.currentTask = 2) :
    (updateRun s ds).pedestalCubes =
        (if s.rotateLocalCubes then
          s.pedestalCubes.map
            (fun cube =>
              { cube with
                localRotation := ds.foldl (fun a d => a + d * 1.5) cube.localRotation })
        else s.pedestalCubes) ∧
      (updateRun s ds).globalRotation =
        (if s.rotateGlobalCenter then ds.foldl (fun a d => a + d * 1.5) s.globalRotation
        else s.globalRotation) ∧
      (updateRun s ds).pedestalRotation =
        (if s.rotatePedestalCenter then ds.foldl (fun a d => a + d * 1.5) s.pedestalRotation
        else s.pedestalRotation) ∧
      (∀ (β : Type) [Field β] (t : GameState β) (es : List β), t.currentTask = 2 →
        (updateRun t es).pedestalCubes =
            (if t.rotateLocalCubes then
              t.pedestalCubes.map
                (fun cube => { cube with localRotation := cube.localRotation + 1.5 * es.sum })
            else t.pedestalCubes) ∧
          (updateRun t es).globalRotation =
            (if t.rotateGlobalCenter then t.globalRotation + 1.5 * es.sum
            else t.globalRotation) ∧
          (updateRun t es).pedestalRotation =
            (if t.rotatePedestalCenter then t.pedestalRotation + 1.5 * es.sum
            else t.pedestalRotation)) := by
  refine ⟨?_, ?_, ?_, ?_⟩
  · rw [updateRun_fold]; simp only [hscene, true_and]
  · rw [updateRun_fold]; simp only [hscene, true_and]
  · rw [updateRun_fold]; simp only [hscene, true_and]
  · intro β _ t es ht
    rw [updateRun_fold]
    simp only [ht, true_and, foldl_steps_exact]

/-- C8 as amended: outside the pedestal scene `update` leaves `globalRotation`,
`pedestalRotation` and every cube unchanged whatever the three pedestal toggles are; the
advance of `rotationAngle` is not gated by the scene: in every scene `update` replaces it by
the sum `rotationAngle + deltaTime * 2.0` (a rounded `float` product and sum in the program)
when `isRotating` is set and leaves it unchanged otherwise; `update` never changes the four
toggles nor the active scene. -/
theorem update_outside_scene {α : Type} [Add α] [Mul α] [OfScientific α] (s : GameState α)
    (deltaTime : α) :
    (s.currentTask ≠ 2 →
        (update s deltaTime).globalRotation = s.globalRotation ∧
          (update s deltaTime).pedestalRotation = s.pedestalRotation ∧
          (update s deltaTime).pedestalCubes = s.pedestalCubes) ∧
      (update s deltaTime).rotationAngle =
        (if s.isRotating then s.rotationAngle + deltaTime * 2.0 else s.rotationAngle) ∧
      (update s deltaTime).isRotating = s.isRotating ∧
      (update s deltaTime).rotateLocalCubes = s.rotateLocalCubes ∧
      (update s deltaTime).rotateGlobalCenter = s.rotateGlobalCenter ∧
      (update s deltaTime).rotatePedestalCenter = s.rotatePedestalCenter ∧
      (update s deltaTime).currentTask = s.currentTask := by
  rw [update_eq]
  refine ⟨?_, rfl, rfl, rfl, rfl, rfl, rfl⟩
  intro ht
  simp only [ht, false_and, if_false, and_self]

end Animation

/-! ## The keyboard handler and the render branch -/

section Keyboard

variable {α : Type} [Field α]

/-- C5: the reset command (`key_callback` on a SPACE press) sets `rotationAngle`,
`pedestalRotation`, `globalRotation` and every cube's `localRotation` to 0 and leaves the four
toggles, the active scene `currentTask`, the pedestal center and every cube's offset and
colour unchanged. -/
theorem key_callback_reset (s : GameState α) (scancode mods : Int) :
    let s' := key_callback s GLFW_KEY_SPACE scancode GLFW_PRESS mods
    s'.rotationAngle = 0 ∧ s'.pedestalRotation = 0 ∧ s'.globalRotation = 0 ∧
      s'.pedestalCubes.map Cube.localRotation = s.pedestalCubes.map (fun _ => 0) ∧
      s'.isRotating = s.isRotating ∧
      s'.rotateLocalCubes = s.rotateLocalCubes ∧
      s'.rotateGlobalCenter = s.rotateGlobalCenter ∧
      s'.rotatePedestalCenter = s.rotatePedestalCenter ∧
      s'.currentTask = s.currentTask ∧
      s'.pedestalPosition = s.pedestalPosition ∧
      s'.pedestalCubes.map Cube.position = s.pedestalCubes.map Cube.position ∧
      s'.pedestalCubes.map Cube.color = s.pedestalCubes.map Cube.color := by
  intro s'
  have hs : s' = key_callback s GLFW_KEY_SPACE scancode GLFW_PRESS mods := rfl
  rw [key_callback_space] at hs
  rw [hs]
  simp [Cube.setLocalRotation, Function.comp_def]

/-- C6: scene selection changes only the active scene. For a scene id in `{0, 1, 2}` a press
of the key `GLFW_KEY_1 + id` (the keys 1, 2, 3) leaves every angle, every toggle and all the
other fields unchanged and sets `currentTask` to that id; hence selecting another scene and
then the original one again gives back the original state. -/
theorem scene_select (s : GameState α) (id other scancode mods scancode2 mods2 : Int)
    (hid : id = 0 ∨ id = 1 ∨ id = 2) (hother : other = 0 ∨ other = 1 ∨ other = 2) :
    key_callback s (GLFW_KEY_1 + id) scancode GLFW_PRESS mods = { s with currentTask := id } ∧
      (s.currentTask = id →
        key_callback (key_callback s (GLFW_KEY_1 + other) scancode GLFW_PRESS mods)
          (GLFW_KEY_1 + id) scancode2 GLFW_PRESS mods2 = s) := by
  have hsel : ∀ (t : GameState α) (k sc m : Int), (k = 0 ∨ k = 1 ∨ k = 2) →
      key_callback t (GLFW_KEY_1 + k) sc GLFW_PRESS m = { t with currentTask := k } := by
    intro t k sc m hk
    rcases hk with rfl | rfl | rfl <;>
      simp [key_callback, GLFW_PRESS, GLFW_KEY_1, GLFW_KEY_2, GLFW_KEY_3]
  refine ⟨hsel s id scancode mods hid, ?_⟩
  intro hcur
  rw [hsel s other scancode mods hother, hsel _ id scancode2 mods2 hid]
  subst hcur
  rfl

/-- The render branch writes nothing but `isRotating`, and only in scene 1. -/
theorem renderScene_eq {β : Type} (s : GameState β) :
    renderScene s = if s.currentTask = 1 then { s with isRotating := true } else s := by
  unfold renderScene
  split_ifs <;> first | rfl | omega

/-- C10, the code at the failing input: in the state reached from the initial one by
selecting scene 1 (key 2), `isRotating` is off, and drawing the frame switches it on; after
an R press has switched it off again, drawing the next frame switches it on once more. -/
theorem renderScene_sets_isRotating :
    let s0 : GameState ℚ := key_callback initialState GLFW_KEY_2 0 GLFW_PRESS 0
    s0.currentTask = 1 ∧ s0.isRotating = false ∧ (renderScene s0).isRotating = true ∧
      (key_callback (renderScene s0) GLFW_KEY_R 0 GLFW_PRESS 0).isRotating = false ∧
      (renderScene (key_callback (renderScene s0) GLFW_KEY_R 0 GLFW_PRESS 0)).isRotating =
        true := by
  simp [key_callback, renderScene, initialState, GLFW_PRESS, GLFW_KEY_1, GLFW_KEY_2,
    GLFW_KEY_3, GLFW_KEY_L, GLFW_KEY_G, GLFW_KEY_P, GLFW_KEY_R]

end Keyboard

/-! ## Evaluations at concrete states -/

section Concrete

set_option maxRecDepth 100000

/-- The concrete scenario of C2 in `float`: in the pedestal scene with only the global toggle
on and all angles zero, `update(1.0)` gives `globalRotation = 1.5` and leaves every
`localRotation` at 0. -/
theorem update_step_witness :
    (update pedestalGlobalOn 1.0).globalRotation = 1.5 ∧
      ∀ cube ∈ (update pedestalGlobalOn 1.0).pedestalCubes, cube.localRotation = 0 :=
  (update_step pedestalGlobalOn 1.0).2.2 pedestalGlobalOn (by decide) (by decide) (by decide)
    (by decide) (by decide)

/-- C2 as stated fails in `float`. With `isRotating` set and `rotationAngle = 2 ^ 24`,
`update(0.5)` leaves `rotationAngle` where it was instead of adding `2.0 * 0.5 = 1`; and in
the pedestal scene with the global toggle on, `update(0.1f)` moves `globalRotation` from 0 to
`5033165 / 2 ^ 25`, which is not `1.5` times the value `13421773 / 2 ^ 27` of `0.1f`. -/
theorem update_step_rounds :
    rotatingAtLargeAngle.isRotating = true ∧
      F32.toRat rotatingAtLargeAngle.rotationAngle = some 16777216 ∧
      F32.toRat (0.5 : F32) = some (1 / 2) ∧
      F32.toRat (update rotatingAtLargeAngle 0.5).rotationAngle = some 16777216 ∧
      F32.toRat (update rotatingAtLargeAngle 0.5).rotationAngle ≠
        some (16777216 + 2 * (1 / 2)) ∧
      pedestalGlobalOn.currentTask = 2 ∧ pedestalGlobalOn.rotateGlobalCenter = true ∧
      F32.toRat pedestalGlobalOn.globalRotation = some 0 ∧
      F32.toRat (0.1 : F32) = some (13421773 / 134217728) ∧
      F32.toRat (update pedestalGlobalOn 0.1).globalRotation = some (5033165 / 33554432) ∧
      F32.toRat (update pedestalGlobalOn 0.1).globalRotation ≠
        some (0 + 3 / 2 * (13421773 / 134217728)) := by
  have h1 : rotatingAtLargeAngle.rotationAngle = F32.finite 8388608 1 := by decide
  have h2 : (0.5 : F32) = F32.finite 8388608 (-24) := by decide
  have h3 : (update rotatingAtLargeAngle 0.5).rotationAngle = F32.finite 8388608 1 := by decide
  have h4 : pedestalGlobalOn.globalRotation = F32.finite 0 (-149) := by decide
  have h5 : (0.1 : F32) = F32.finite 13421773 (-27) := by decide
  have h6 : (update pedestalGlobalOn 0.1).globalRotation = F32.finite 10066330 (-26) := by
    decide
  rw [h3, h6, h1, h4, h2, h5]
  refine ⟨by decide, ?_, ?_, ?_, ?_, by decide, by decide, ?_, ?_, ?_, ?_⟩ <;>
    norm_num [F32.toRat]

/-- C3 as stated fails in `float`: in the pedestal scene with the global toggle on and zero
angles, `update(0.003f)` then `update(0.004f)` gives `globalRotation = 11274289 / 2 ^ 30`,
while the single call `update(0.003f + 0.004f)` gives `11274290 / 2 ^ 30`; both `deltaTime`
values are positive. -/
theorem update_additive_rounds :
    (0.003 : F32) = F32.finite 12884902 (-32) ∧ (0.004 : F32) = F32.finite 8589935 (-31) ∧
      (update (update pedestalGlobalOn 0.003) 0.004).globalRotation =
        F32.finite 11274289 (-30) ∧
      (update pedestalGlobalOn (0.003 + 0.004)).globalRotation = F32.finite 11274290 (-30) ∧
      (update (update pedestalGlobalOn 0.003) 0.004).globalRotation ≠
        (update pedestalGlobalOn (0.003 + 0.004)).globalRotation := by
  decide

/-- Scene selection at the initial state: key 1 keeps scene 0, and going to scene 2 and back
returns the initial state. -/
theorem scene_select_witness :
    ((0 : Int) = 0 ∨ (0 : Int) = 1 ∨ (0 : Int) = 2) ∧
      ((2 : Int) = 0 ∨ (2 : Int) = 1 ∨ (2 : Int) = 2) ∧
      key_callback (initialState : GameState ℚ) (GLFW_KEY_1 + 0) 0 GLFW_PRESS 0 =
        { (initialState : GameState ℚ) with currentTask := 0 } ∧
      ((initialState : GameState ℚ).currentTask = 0 →
        key_callback (key_callback (initialState : GameState ℚ) (GLFW_KEY_1 + 2) 0 GLFW_PRESS 0)
          (GLFW_KEY_1 + 0) 0 GLFW_PRESS 0 = initialState) :=
  ⟨by decide, by decide, scene_select initialState 0 2 0 0 0 0 (by decide) (by decide)⟩

/-- A run of two steps in `float`, in the pedestal scene with only the global toggle on: the
global spin becomes `(0 + 1 * 1.5) + 2 * 1.5 = 4.5`, the pedestal spin and the cubes stay as
they were. -/
theorem updateRun_independent_witness :
    pedestalGlobalOn.currentTask = 2 ∧
      (updateRun pedestalGlobalOn [1.0, 2.0]).pedestalCubes = pedestalGlobalOn.pedestalCubes ∧
      (updateRun pedestalGlobalOn [1.0, 2.0]).globalRotation = 4.5 ∧
      (updateRun pedestalGlobalOn [1.0, 2.0]).pedestalRotation = 0 := by
  obtain ⟨h1, h2, h3, -⟩ := updateRun_independent pedestalGlobalOn [1.0, 2.0] (by decide)
  refine ⟨by decide, ?_, ?_, ?_⟩
  · rw [h1]; decide
  · rw [h2]; decide
  · rw [h3]; decide

/-- C7 as stated fails in `float`: in the pedestal scene with the global toggle on and zero
angles, the run `update(0.003f)`, `update(0.004f)` ends with
`globalRotation = 11274289 / 2 ^ 30`, which is not the initial value `0` plus `1.5` times the
sum of the values `12884902 / 2 ^ 32` and `8589935 / 2 ^ 31` of the two steps. -/
theorem updateRun_rounds :
    pedestalGlobalOn.currentTask = 2 ∧ pedestalGlobalOn.rotateGlobalCenter = true ∧
      F32.toRat pedestalGlobalOn.globalRotation = some 0 ∧
      F32.toRat (0.003 : F32) = some (12884902 / 4294967296) ∧
      F32.toRat (0.004 : F32) = some (8589935 / 2147483648) ∧
      F32.toRat (updateRun pedestalGlobalOn [0.003, 0.004]).globalRotation =
        some (11274289 / 1073741824) ∧
      F32.toRat (updateRun pedestalGlobalOn [0.003, 0.004]).globalRotation ≠
        some (0 + 3 / 2 * (12884902 / 4294967296 + 8589935 / 2147483648)) := by
  have h1 : pedestalGlobalOn.globalRotation = F32.finite 0 (-149) := by decide
  have h2 : (0.003 : F32) = F32.finite 12884902 (-32) := by decide
  have h3 : (0.004 : F32) = F32.finite 8589935 (-31) := by decide
  have h4 : (updateRun pedestalGlobalOn [0.003, 0.004]).globalRotation =
      F32.finite 11274289 (-30) := by decide
  rw [h4, h1, h2, h3]
  refine ⟨by decide, by decide, ?_, ?_, ?_, ?_, ?_⟩ <;> norm_num [F32.toRat]

/-- C8 as stated fails: in scene 0 (neither the pedestal nor the single-shape scene) with
`isRotating` set, `update(1)` moves `rotationAngle` from 0 to 2. -/
theorem update_rotationAngle_ungated :
    sceneZeroRotating.currentTask ≠ 1 ∧ sceneZeroRotating.isRotating = true ∧
      sceneZeroRotating.rotationAngle = 0 ∧
      (update sceneZeroRotating 1).rotationAngle = 2 ∧
      (update sceneZeroRotating 1).rotationAngle ≠ sceneZeroRotating.rotationAngle := by
  decide

/-- The amended C8 at a state of scene 0 with `isRotating` and all three pedestal toggles
set: the pedestal angles and the cubes stay, `rotationAngle` goes from `0.5` to
`0.5 + 1 * 2.0 = 2.5`, the toggles stay. -/
theorem update_outside_scene_witness :
    sceneZeroAllOn.currentTask ≠ 2 ∧
      sceneZeroAllOn.rotateLocalCubes = true ∧ sceneZeroAllOn.rotateGlobalCenter = true ∧
      sceneZeroAllOn.rotatePedestalCenter = true ∧
      (update sceneZeroAllOn 1.0).globalRotation = 1.5 ∧
      (update sceneZeroAllOn 1.0).pedestalRotation = 3.0 ∧
      (update sceneZeroAllOn 1.0).pedestalCubes = sceneZeroAllOn.pedestalCubes ∧
      (update sceneZeroAllOn 1.0).rotationAngle = 2.5 ∧
      (update sceneZeroAllOn 1.0).isRotating = true := by
  have hscene : sceneZeroAllOn.currentTask ≠ 2 := by decide
  obtain ⟨h1, h2, h3, -⟩ := update_outside_scene sceneZeroAllOn 1.0
  obtain ⟨h4, h5, h6⟩ := h1 hscene
  refine ⟨hscene, by decide, by decide, by decide, ?_, ?_, h6, ?_, ?_⟩
  · rw [h4]; decide
  · rw [h5]; decide
  · rw [h2]; decide
  · rw [h3]; decide

end Concrete

end Refactor
